import Mathlib

/-!
Verification development for the fledge configuration/audit/statistics layer.

The configuration-manager and statistics modules are present in this
repository only through their unit tests, so their operations are modelled
from the specification (each such definition carries a doc comment starting
with `Modelled from the spec:`).  The audit logger is embedded directly from
`src/python/foglamp/common/audit_logger.py`.

Python values flowing through these modules (strings, ints, booleans, None,
JSON lists and dicts) are embedded as the inductive type `PyVal`; Python
dictionaries become association lists preserving insertion order, and every
raising code path becomes an `Except PyErr` result.
-/

namespace Fledge

/-- Embedding of the Python values handled by the configuration layer:
strings, integers, booleans, `None`, JSON arrays and JSON objects
(dictionaries with string keys, insertion order preserved). -/
inductive PyVal where
  | str : String → PyVal
  | int : Int → PyVal
  | bool : Bool → PyVal
  | none : PyVal
  | list : List PyVal → PyVal
  | dict : List (String × PyVal) → PyVal

mutual

def PyVal.deq : (a b : PyVal) → Decidable (a = b)
  | .str _, .str _ =>
      decidable_of_iff _ ⟨congrArg PyVal.str, PyVal.str.inj⟩
  | .int _, .int _ =>
      decidable_of_iff _ ⟨congrArg PyVal.int, PyVal.int.inj⟩
  | .bool _, .bool _ =>
      decidable_of_iff _ ⟨congrArg PyVal.bool, PyVal.bool.inj⟩
  | .none, .none => isTrue rfl
  | .list xs, .list ys =>
      haveI := PyVal.deqL xs ys
      decidable_of_iff _ ⟨congrArg PyVal.list, PyVal.list.inj⟩
  | .dict xs, .dict ys =>
      haveI := PyVal.deqD xs ys
      decidable_of_iff _ ⟨congrArg PyVal.dict, PyVal.dict.inj⟩
  | .str _, .int _ => isFalse nofun
  | .str _, .bool _ => isFalse nofun
  | .str _, .none => isFalse nofun
  | .str _, .list _ => isFalse nofun
  | .str _, .dict _ => isFalse nofun
  | .int _, .str _ => isFalse nofun
  | .int _, .bool _ => isFalse nofun
  | .int _, .none => isFalse nofun
  | .int _, .list _ => isFalse nofun
  | .int _, .dict _ => isFalse nofun
  | .bool _, .str _ => isFalse nofun
  | .bool _, .int _ => isFalse nofun
  | .bool _, .none => isFalse nofun
  | .bool _, .list _ => isFalse nofun
  | .bool _, .dict _ => isFalse nofun
  | .none, .str _ => isFalse nofun
  | .none, .int _ => isFalse nofun
  | .none, .bool _ => isFalse nofun
  | .none, .list _ => isFalse nofun
  | .none, .dict _ => isFalse nofun
  | .list _, .str _ => isFalse nofun
  | .list _, .int _ => isFalse nofun
  | .list _, .bool _ => isFalse nofun
  | .list _, .none => isFalse nofun
  | .list _, .dict _ => isFalse nofun
  | .dict _, .str _ => isFalse nofun
  | .dict _, .int _ => isFalse nofun
  | .dict _, .bool _ => isFalse nofun
  | .dict _, .none => isFalse nofun
  | .dict _, .list _ => isFalse nofun

def PyVal.deqL : (a b : List PyVal) → Decidable (a = b)
  | [], [] => isTrue rfl
  | [], _ :: _ => isFalse nofun
  | _ :: _, [] => isFalse nofun
  | x :: xs, y :: ys =>
      match PyVal.deq x y, PyVal.deqL xs ys with
      | isTrue h1, isTrue h2 => isTrue (by rw [h1, h2])
      | isFalse h1, _ => isFalse (fun h => h1 (List.cons.inj h).1)
      | _, isFalse h2 => isFalse (fun h => h2 (List.cons.inj h).2)

def PyVal.deqD : (a b : List (String × PyVal)) → Decidable (a = b)
  | [], [] => isTrue rfl
  | [], _ :: _ => isFalse nofun
  | _ :: _, [] => isFalse nofun
  | (k, x) :: xs, (l, y) :: ys =>
      match String.decEq k l, PyVal.deq x y, PyVal.deqD xs ys with
      | isTrue h0, isTrue h1, isTrue h2 => isTrue (by rw [h0, h1, h2])
      | isFalse h0, _, _ =>
          isFalse (fun h => h0 (congrArg Prod.fst (List.cons.inj h).1))
      | _, isFalse h1, _ =>
          isFalse (fun h => h1 (congrArg Prod.snd (List.cons.inj h).1))
      | _, _, isFalse h2 => isFalse (fun h => h2 (List.cons.inj h).2)

end

instance : DecidableEq PyVal := PyVal.deq

/-- Embedding of the Python exception classes raised by this layer. -/
inductive PyErr where
  | typeError (msg : String)
  | valueError (msg : String)
  | keyError (msg : String)
  | nameError (msg : String)
  | exception (msg : String)
  deriving DecidableEq

/-- A validated or raw item definition: attribute name to attribute value,
insertion order preserved (a Python dict). -/
abbrev ItemDef := List (String × PyVal)

/-- A category value: item name to item definition (a Python dict). -/
abbrev CategoryVal := List (String × ItemDef)

/-- First-match lookup in an association list (Python `d.get(k)` /
`d[k]`). -/
def alook {α : Type} (k : String) : List (String × α) → Option α
  | [] => Option.none
  | (k', v) :: rest => if k = k' then some v else alook k rest

/-- Python `d[k] = v`: replace the value at the first occurrence of `k`,
or append the binding when `k` is absent (dict insertion order). -/
def setAttr {α : Type} : List (String × α) → String → α → List (String × α)
  | [], k, v => [(k, v)]
  | (k', v') :: rest, k, v =>
      if k' = k then (k', v) :: rest else (k', v') :: setAttr rest k v

theorem alook_setAttr_self {α : Type} (m : List (String × α)) (k : String) (v : α) :
    alook k (setAttr m k v) = some v := by
  induction m with
  | nil => simp [setAttr, alook]
  | cons p rest ih =>
      obtain ⟨k', v'⟩ := p
      by_cases h : k' = k
      · subst h
        simp [setAttr, alook]
      · have h2 : ¬(k = k') := fun e => h e.symm
        simp only [setAttr, if_neg h, alook, if_neg h2]
        exact ih

theorem alook_setAttr_ne {α : Type} (m : List (String × α)) {k k' : String} (v : α)
    (h : k ≠ k') : alook k (setAttr m k' v) = alook k m := by
  induction m with
  | nil => simp [setAttr, alook, h]
  | cons p rest ih =>
      obtain ⟨k₀, v₀⟩ := p
      by_cases h0 : k₀ = k'
      · subst h0
        have h1 : ¬(k = k₀) := fun e => h (e ▸ rfl)
        simp [setAttr, alook, if_neg h1]
      · by_cases h1 : k = k₀
        · subst h1
          simp [setAttr, if_neg h0, alook]
        · simp only [setAttr, if_neg h0, alook, if_neg h1]
          exact ih

theorem keys_setAttr {α : Type} (m : List (String × α)) (k : String) (v : α) :
    (setAttr m k v).map Prod.fst =
      if (alook k m).isSome then m.map Prod.fst else m.map Prod.fst ++ [k] := by
  induction m with
  | nil => simp [setAttr, alook]
  | cons p rest ih =>
      obtain ⟨k₀, v₀⟩ := p
      by_cases h0 : k₀ = k
      · subst h0
        simp [setAttr, alook]
      · have h1 : ¬(k = k₀) := fun e => h0 e.symm
        simp only [setAttr, if_neg h0, alook, if_neg h1, List.map_cons, ih]
        by_cases hs : (alook k rest).isSome <;> simp [hs]

theorem alook_eq_none_of_not_mem {α : Type} {m : List (String × α)} {k : String}
    (h : k ∉ m.map Prod.fst) : alook k m = Option.none := by
  induction m with
  | nil => rfl
  | cons p rest ih =>
      obtain ⟨k₀, v₀⟩ := p
      simp only [List.map_cons, List.mem_cons] at h
      push_neg at h
      simp [alook, h.1, ih h.2]

theorem alook_append {α : Type} (a b : List (String × α)) (k : String) :
    alook k (a ++ b) =
      match alook k a with
      | some v => some v
      | Option.none => alook k b := by
  induction a with
  | nil => simp [alook]
  | cons p rest ih =>
      obtain ⟨k₀, v₀⟩ := p
      by_cases h : k = k₀
      · simp [alook, h]
      · simp [alook, h, ih]

theorem alook_map_keyfn {α β : Type} (l : List (String × α)) (f : String → α → β)
    (k : String) :
    alook k (l.map fun p => (p.1, f p.1 p.2)) = (alook k l).map (f k) := by
  induction l with
  | nil => simp [alook]
  | cons p rest ih =>
      obtain ⟨k₀, v₀⟩ := p
      by_cases h : k = k₀
      · subst h; simp [alook]
      · simp [alook, h, ih]

theorem alook_filter_val {α : Type} (l : List (String × α)) (q : α → Bool)
    (k : String) (hnd : (l.map Prod.fst).Nodup) :
    alook k (l.filter fun p => q p.2) =
      match alook k l with
      | some v => if q v then some v else Option.none
      | Option.none => Option.none := by
  induction l with
  | nil => simp [alook]
  | cons p rest ih =>
      obtain ⟨k₀, v₀⟩ := p
      simp only [List.map_cons, List.nodup_cons] at hnd
      by_cases h : k = k₀
      · subst h
        have hnone : alook k (rest.filter fun p => q p.2) = Option.none := by
          apply alook_eq_none_of_not_mem
          intro hmem
          apply hnd.1
          obtain ⟨q', hq', he⟩ := List.mem_map.mp hmem
          exact he ▸ List.mem_map_of_mem _ (List.mem_of_mem_filter hq')
        by_cases hq : q v₀ <;> simp [List.filter_cons, hq, alook, hnone]
      · by_cases hq : q v₀ <;> simp [List.filter_cons, hq, alook, h, ih hnd.2]

theorem alook_filter_key {α : Type} (l : List (String × α)) (q : String → Bool)
    (k : String) :
    alook k (l.filter fun p => q p.1) =
      if q k then alook k l else Option.none := by
  induction l with
  | nil => simp [alook]
  | cons p rest ih =>
      obtain ⟨k₀, v₀⟩ := p
      by_cases h : k = k₀
      · subst h
        by_cases hq : q k <;> simp [List.filter_cons, hq, alook, ih]
      · by_cases hq : q k₀ <;> by_cases hqk : q k <;>
          simp [List.filter_cons, hq, hqk, alook, h, ih]

/-! ## Type Validator (spec §4.1)

The configuration manager's module is absent from `src/`, so the validator
is modelled from the spec, corroborated by
`test__validate_type_value` / `test__validate_type_value_bad_data` in
`src/tests/unit/python/foglamp/common/test_configuration_manager.py`. -/

/-- Python `str.lower()` (ASCII), defined structurally over the character
list. -/
def lowerStr (s : String) : String :=
  String.mk (s.toList.map Char.toLower)

/-- Strip ASCII whitespace from both ends (Python `str.strip()` as applied
by `int()` / `float()`). -/
def stripWs (cs : List Char) : List Char :=
  ((cs.dropWhile Char.isWhitespace).reverse.dropWhile Char.isWhitespace).reverse

/-- Drop one optional leading sign. -/
def dropSign : List Char → List Char
  | '+' :: r => r
  | '-' :: r => r
  | r => r

/-- Nonempty all-digit run. -/
def isDigits (cs : List Char) : Bool :=
  !cs.isEmpty && cs.all Char.isDigit

/-- Modelled from the spec: `integer` "must parse as a base-10 integer"
(Python `int(value)` grammar: optional sign, digits). -/
def isIntLit (s : String) : Bool :=
  isDigits (dropSign (stripWs s.toList))

/-- Split a char list at the first `e`/`E`, if any (float exponent
separator). -/
def splitAtExp : List Char → List Char × Option (List Char)
  | [] => ([], Option.none)
  | c :: rest =>
      if c = 'e' ∨ c = 'E' then ([], some rest)
      else
        let p := splitAtExp rest
        (c :: p.1, p.2)

/-- Float mantissa: `digits+ ['.' digits*]` or `'.' digits+`. -/
def floatMantOk (cs : List Char) : Bool :=
  let a := cs.takeWhile Char.isDigit
  let b := cs.dropWhile Char.isDigit
  match b with
  | [] => !a.isEmpty
  | '.' :: c => (!a.isEmpty || !c.isEmpty) && c.all Char.isDigit
  | _ => false

/-- Float exponent part: optional sign then digits. -/
def floatExpOk (cs : List Char) : Bool :=
  isDigits (dropSign cs)

/-- Modelled from the spec: `float` "must parse as a floating point number
(NaN, Infinity, exponent forms are all accepted per standard floating-point
literal grammar)"; malformed tokens fail (Python `float(value)` grammar). -/
def isFloatLit (s : String) : Bool :=
  let cs := dropSign (stripWs s.toList)
  let low := cs.map Char.toLower
  if low = "inf".toList ∨ low = "infinity".toList ∨ low = "nan".toList then true
  else
    match splitAtExp cs with
    | (m, Option.none) => floatMantOk m
    | (m, some e) => floatMantOk m && floatExpOk e

/-- Split a char list on a separator character (Python `str.split(sep)`). -/
def splitSep (sep : Char) : List Char → List (List Char)
  | [] => [[]]
  | c :: rest =>
      if c = sep then [] :: splitSep sep rest
      else
        match splitSep sep rest with
        | h :: t => (c :: h) :: t
        | [] => [[c]]

/-- Decimal value of a digit run. -/
def digitsVal (cs : List Char) : Nat :=
  cs.foldl (fun n c => n * 10 + (c.toNat - '0'.toNat)) 0

/-- One dotted-quad octet: digits, no leading zero (except "0"), ≤ 255. -/
def ipv4OctetOk (p : List Char) : Bool :=
  isDigits p && p.length ≤ 3 && (p = ['0'] || p.head? ≠ some '0') && digitsVal p ≤ 255

/-- Modelled from the spec: `IPv4` "must parse as a valid address of that
family" (four dotted decimal octets). -/
def isIPv4 (s : String) : Bool :=
  let parts := splitSep '.' s.toList
  parts.length = 4 && parts.all ipv4OctetOk

/-- Hexadecimal digit. -/
def isHexDig (c : Char) : Bool :=
  c.isDigit || ('a' ≤ c && c ≤ 'f') || ('A' ≤ c && c ≤ 'F')

/-- Does `pat` occur as a prefix of `cs`? -/
def startsWithL : List Char → List Char → Bool
  | [], _ => true
  | _ :: _, [] => false
  | p :: ps, c :: cs => p = c && startsWithL ps cs

/-- Number of positions at which `pat` occurs in `cs`. -/
def countSubPos (pat : List Char) : List Char → Nat
  | [] => if startsWithL pat [] then 1 else 0
  | c :: cs => (if startsWithL pat (c :: cs) then 1 else 0) + countSubPos pat cs

/-- One IPv6 hextet: one to four hex digits. -/
def ipv6GroupOk (g : List Char) : Bool :=
  g.isEmpty || (g.length ≤ 4 && g.all isHexDig)

/-- Modelled from the spec: `IPv6` "must parse as a valid address of that
family" (colon-separated hextets with at most one `::` elision). -/
def isIPv6 (s : String) : Bool :=
  let cs := s.toList
  let gs := splitSep ':' cs
  let nonempty := gs.filter fun g => !g.isEmpty
  let hexOk := gs.all ipv6GroupOk
  let doubles := "::".toList
  let cnt := countSubPos doubles cs
  if ¬hexOk then false
  else if cnt = 0 then gs.length = 8 && nonempty.length = 8
  else if cnt = 1 then
    nonempty.length ≤ 7 &&
      (cs.take 1 ≠ [':'] || cs.take 2 = doubles) &&
      (cs.reverse.take 1 ≠ [':'] || cs.reverse.take 2 = doubles)
  else false

/-- Split `scheme://rest`, at the first occurrence of `://`. -/
def splitScheme : List Char → Option (List Char × List Char)
  | [] => Option.none
  | ':' :: '/' :: '/' :: rest => some ([], rest)
  | c :: rest => (splitScheme rest).map fun p => (c :: p.1, p.2)

/-- Modelled from the spec: `URL` "must have an explicit scheme and a
non-empty network location (host[:port]); missing scheme or empty host
fails". -/
def isURL (s : String) : Bool :=
  match splitScheme s.toList with
  | Option.none => false
  | some (scheme, rest) =>
      let netloc := rest.takeWhile fun c => c ≠ '/' ∧ c ≠ '?' ∧ c ≠ '#'
      (match scheme with
       | [] => false
       | c :: cs =>
           c.isAlpha && cs.all fun d => d.isAlphanum || d = '+' || d = '-' || d = '.') &&
        !netloc.isEmpty

/-- Parsing mode of the fuelled JSON syntax checker. -/
inductive JMode where
  | val : JMode
  | obj : Bool → JMode
  | arr : Bool → JMode

/-- JSON insignificant whitespace. -/
def jskipWs : List Char → List Char :=
  List.dropWhile fun c => c = ' ' ∨ c = '\t' ∨ c = '\n' ∨ c = '\r'

/-- JSON string body after the opening quote (lenient on escape contents). -/
def jStr : List Char → Option (List Char)
  | [] => Option.none
  | '"' :: rest => some rest
  | '\\' :: _ :: rest => jStr rest
  | '\\' :: [] => Option.none
  | _ :: rest => jStr rest

/-- JSON number exponent digits, after `e`/`E` and optional sign. -/
def jExpDigits (cs : List Char) : Option (List Char) :=
  match dropSign cs with
  | c :: r => if c.isDigit then some (r.dropWhile Char.isDigit) else Option.none
  | [] => Option.none

/-- Optional JSON exponent. -/
def jExp : List Char → Option (List Char)
  | 'e' :: rest => jExpDigits rest
  | 'E' :: rest => jExpDigits rest
  | cs => some cs

/-- Optional JSON fraction, then optional exponent. -/
def jFrac : List Char → Option (List Char)
  | '.' :: rest =>
      match rest with
      | c :: r2 => if c.isDigit then jExp (r2.dropWhile Char.isDigit) else Option.none
      | [] => Option.none
  | cs => jExp cs

/-- JSON number after the optional leading minus. -/
def jNum : List Char → Option (List Char)
  | '0' :: rest => jFrac rest
  | c :: rest => if c.isDigit ∧ c ≠ '0' then jFrac (rest.dropWhile Char.isDigit) else Option.none
  | [] => Option.none

/-- Fuelled JSON syntax checker (Python `json.loads` grammar, including its
`NaN` / `Infinity` / `-Infinity` extensions).  Returns the unconsumed
suffix on success. -/
def jparse : Nat → JMode → List Char → Option (List Char)
  | 0, _, _ => Option.none
  | fuel + 1, JMode.val, cs =>
      (match jskipWs cs with
       | '{' :: rest => jparse fuel (JMode.obj true) (jskipWs rest)
       | '[' :: rest => jparse fuel (JMode.arr true) (jskipWs rest)
       | '"' :: rest => jStr rest
       | 't' :: 'r' :: 'u' :: 'e' :: rest => some rest
       | 'f' :: 'a' :: 'l' :: 's' :: 'e' :: rest => some rest
       | 'n' :: 'u' :: 'l' :: 'l' :: rest => some rest
       | 'N' :: 'a' :: 'N' :: rest => some rest
       | 'I' :: 'n' :: 'f' :: 'i' :: 'n' :: 'i' :: 't' :: 'y' :: rest => some rest
       | '-' :: 'I' :: 'n' :: 'f' :: 'i' :: 'n' :: 'i' :: 't' :: 'y' :: rest => some rest
       | '-' :: rest => jNum rest
       | c :: rest => if c.isDigit then jNum (c :: rest) else Option.none
       | [] => Option.none)
  | fuel + 1, JMode.obj allowEmpty, cs =>
      (match cs with
       | '}' :: rest => if allowEmpty then some rest else Option.none
       | '"' :: rest =>
           (match jStr rest with
            | Option.none => Option.none
            | some r1 =>
                match jskipWs r1 with
                | ':' :: r2 =>
                    (match jparse fuel JMode.val r2 with
                     | Option.none => Option.none
                     | some r3 =>
                         match jskipWs r3 with
                         | ',' :: r4 => jparse fuel (JMode.obj false) (jskipWs r4)
                         | '}' :: r4 => some r4
                         | _ => Option.none)
                | _ => Option.none)
       | _ => Option.none)
  | fuel + 1, JMode.arr allowEmpty, cs =>
      (match cs with
       | ']' :: rest => if allowEmpty then some rest else Option.none
       | _ =>
           match jparse fuel JMode.val cs with
           | Option.none => Option.none
           | some r1 =>
               match jskipWs r1 with
               | ',' :: r2 => jparse fuel (JMode.arr false) (jskipWs r2)
               | ']' :: r2 => some r2
               | _ => Option.none)

/-- Modelled from the spec: "parses as valid JSON text" (Python
`json.loads(s)` succeeds). -/
def jsonParses (s : String) : Bool :=
  match jparse (s.length + 1) JMode.val s.toList with
  | some rest => (jskipWs rest).isEmpty
  | Option.none => false

/-- Modelled from the spec (§4.1): the Type Validator
`_validate_type_value(type, raw_value)`.  Returns embedded Python `True` /
`False`, the parsed address for the IP families, or `None` (the
"not implemented" sentinel, also produced for types with no validator —
`test__validate_type_value` shows `password` / `X509 certificate` return
`None`); only an exact `False` counts as a validation failure
downstream. -/
def _validate_type_value (ty : String) (v : PyVal) : PyVal :=
  if ty = "boolean" then
    match v with
    | PyVal.str s => PyVal.bool (lowerStr s = "true" || lowerStr s = "false")
    | _ => PyVal.bool false
  else if ty = "integer" then
    match v with
    | PyVal.str s => PyVal.bool (isIntLit s)
    | _ => PyVal.bool false
  else if ty = "float" then
    match v with
    | PyVal.str s => PyVal.bool (isFloatLit s)
    | _ => PyVal.bool false
  else if ty = "IPv4" then
    match v with
    | PyVal.str s => if isIPv4 s then PyVal.str s else PyVal.bool false
    | _ => PyVal.bool false
  else if ty = "IPv6" then
    match v with
    | PyVal.str s => if isIPv6 s then PyVal.str s else PyVal.bool false
    | _ => PyVal.bool false
  else if ty = "JSON" then
    match v with
    | PyVal.dict _ => PyVal.bool true
    | PyVal.str s => PyVal.bool (jsonParses s)
    | _ => PyVal.bool false
  else if ty = "URL" then
    match v with
    | PyVal.str s => PyVal.bool (isURL s)
    | _ => PyVal.bool false
  else
    PyVal.none

/-- Modelled from the spec: normalization (`_clean`): "boolean values are
case-normalized to lowercase true/false before storage; all other types
pass through unchanged". -/
def _clean (ty : String) (v : PyVal) : PyVal :=
  if ty = "boolean" then
    match v with
    | PyVal.str s => PyVal.str (lowerStr s)
    | w => w
  else v

/-! ## Merge Engine (spec §4.3) -/

/-- Is this item marked deprecated (`deprecated == "true"`)? -/
def itemDeprecated (i : ItemDef) : Bool :=
  match alook "deprecated" i with
  | some (PyVal.str s) => s = "true"
  | _ => false

/-- Merge one item of the new definition against storage: keep every
attribute from `new` except `value`, which is taken from storage when the
item exists there (Python `item_val_new['value'] =
item_val_storage.get('value')`). -/
def mergeItem (catStorage : CategoryVal) (k : String) (i : ItemDef) : ItemDef :=
  match alook k catStorage with
  | some s => setAttr i "value" ((alook "value" s).getD PyVal.none)
  | Option.none => i

/-- Modelled from the spec (§4.3): `_merge_category_vals(new_category_val,
storage_category_val, keep_original_items, category_name)`.  Items in both
keep new's attributes with storage's `value`; items only in storage are
carried through exactly when `keep_original_items`; items marked
`deprecated == "true"` in new are dropped entirely.  The best-effort audit
side channel is outside the merged-result model. -/
def _merge_category_vals (catNew catStorage : CategoryVal) (keep_original_items : Bool)
    (_category_name : String) : CategoryVal :=
  let merged :=
    (catNew.filter fun p => !itemDeprecated p.2).map fun p =>
      (p.1, mergeItem catStorage p.1 p.2)
  let leftovers := catStorage.filter fun p => (alook p.1 catNew).isNone
  merged ++ (if keep_original_items then leftovers else [])

/-! ## Item Schema Validator (spec §4.2) -/

/-- The twelve recognized type strings. -/
def _valid_type_strings : List String :=
  ["IPv4", "IPv6", "JSON", "URL", "X509 certificate", "boolean",
   "enumeration", "float", "integer", "password", "script", "string"]

/-- Declared type of an item, or `""` when absent or not a string. -/
def tyOf (item : ItemDef) : String :=
  match alook "type" item with
  | some (PyVal.str t) => t
  | _ => ""

/-- Python `x in options` for a validated options list (members are
strings). -/
def strMember (d : PyVal) (xs : List PyVal) : Bool :=
  xs.any fun o =>
    match o, d with
    | PyVal.str a, PyVal.str b => a = b
    | _, _ => false

/-- Shape check for an `options` entry value: non-empty list of strings. -/
def checkOptionsShape (n : String) (v : PyVal) : Except PyErr (List PyVal) :=
  match v with
  | PyVal.list xs =>
      if xs.isEmpty then
        Except.error (PyErr.valueError
          s!"entry_val cannot be empty list for item_name {n} and entry_name options")
      else if xs.all (fun o => match o with | PyVal.str _ => true | _ => false) then
        Except.ok xs
      else
        Except.error (PyErr.typeError
          s!"entry_val must be a list for item_name {n} and entry_name options")
  | _ =>
      Except.error (PyErr.typeError
        s!"entry_val must be a list for item_name {n} and entry_name options")

/-- Modelled from the spec (§4.2 steps 3, 5, 6, 8, 9): per-entry
validation of one attribute of an item definition, performed while
scanning the item's entries in order.  `b` is `set_value_from_default`. -/
def checkEntry (n : String) (item : ItemDef) (b : Bool) (k : String) (v : PyVal) :
    Except PyErr Unit :=
  if k = "options" then do
    let _ ← checkOptionsShape n v
    Except.ok ()
  else do
    -- scalar entries must be strings, except JSON's structured default/value
    (match v with
     | PyVal.str _ => Except.ok ()
     | PyVal.dict _ =>
         if (k = "default" ∨ k = "value") ∧ tyOf item = "JSON" then Except.ok ()
         else Except.error (PyErr.typeError
           s!"entry_val must be a string for item_name {n} and entry_name {k}")
     | _ => Except.error (PyErr.typeError
         s!"entry_val must be a string for item_name {n} and entry_name {k}"))
    if k = "type" then
      match v with
      | PyVal.str t =>
          if t ∈ _valid_type_strings then
            if t = "enumeration" then
              match alook "options" item with
              | Option.none =>
                  Except.error (PyErr.keyError "options required for enumeration type")
              | some ov => do
                  let xs ← checkOptionsShape n ov
                  (match alook "default" item with
                   | some d =>
                       if strMember d xs then Except.ok ()
                       else Except.error (PyErr.valueError
                         s!"entry_val does not exist in options list for item_name {n} and entry_name options")
                   | Option.none => Except.ok ())
                  if b then Except.ok ()
                  else
                    match alook "value" item with
                    | some w =>
                        if strMember w xs then Except.ok ()
                        else Except.error (PyErr.valueError
                          s!"entry_val does not exist in options list for item_name {n} and entry_name options")
                    | Option.none => Except.ok ()
            else Except.ok ()
          else
            Except.error (PyErr.valueError
              s!"Invalid entry_val for entry_name \"type\" for item_name {n}. valid: {_valid_type_strings}")
      | _ => Except.error (PyErr.typeError
          s!"entry_val must be a string for item_name {n} and entry_name type")
    else if k = "readonly" ∨ k = "deprecated" then
      if _validate_type_value "boolean" v = PyVal.bool false then
        Except.error (PyErr.valueError s!"Entry value must be boolean for item name {k}")
      else Except.ok ()
    else if k = "order" ∨ k = "length" then
      if _validate_type_value "integer" v = PyVal.bool false then
        Except.error (PyErr.valueError s!"Entry value must be an integer for item name {k}")
      else Except.ok ()
    else if k = "minimum" ∨ k = "maximum" then
      if _validate_type_value "integer" v = PyVal.bool false ∧
          _validate_type_value "float" v = PyVal.bool false then
        Except.error (PyErr.valueError
          s!"Entry value must be an integer or float for item name {k}")
      else Except.ok ()
    else if k = "description" ∨ k = "default" ∨ k = "displayName" ∨ k = "validity" ∨
        k = "mandatory" then
      Except.ok ()
    else if k = "value" then
      if b then
        Except.error (PyErr.valueError
          s!"Specifying value_name and value_val for item_name {n} is not allowed if desired behavior is to use default_val as value_val")
      else Except.ok ()
    else
      Except.error (PyErr.valueError s!"Unrecognized entry_name {k} for item_name {n}")

/-- Scan all entries of an item definition in order (spec §4.2, the
per-entry pass). -/
def scanEntries (n : String) (item : ItemDef) (b : Bool) :
    List (String × PyVal) → Except PyErr Unit
  | [] => Except.ok ()
  | (k, v) :: rest => do
      checkEntry n item b k v
      scanEntries n item b rest

/-- Modelled from the spec (§4.2 steps 4 and 6): `description`, `type`,
`default` are mandatory, and `value` is mandatory exactly when
`set_value_from_default` is false. -/
def checkMandatory (n : String) (item : ItemDef) (b : Bool) : Except PyErr Unit :=
  if (alook "description" item).isNone then
    Except.error (PyErr.valueError s!"Missing entry_name description for item_name {n}")
  else if (alook "type" item).isNone then
    Except.error (PyErr.valueError s!"Missing entry_name type for item_name {n}")
  else if (alook "default" item).isNone then
    Except.error (PyErr.valueError s!"Missing entry_name default for item_name {n}")
  else if ¬b ∧ (alook "value" item).isNone then
    Except.error (PyErr.valueError s!"Missing entry_name value for item_name {n}")
  else
    Except.ok ()

/-- Modelled from the spec (§4.2): validate a single item definition and
produce its normalized form — the supplied attributes with `value` set
from the chosen source (`default` when `set_value_from_default`, the
supplied `value` otherwise), normalized by `_clean`. -/
def validateItem (n : String) (item : ItemDef) (b : Bool) : Except PyErr ItemDef := do
  scanEntries n item b item
  checkMandatory n item b
  match alook "type" item with
  | some (PyVal.str t) =>
      match (if b then alook "default" item else alook "value" item) with
      | some src =>
          if _validate_type_value t src = PyVal.bool false then
            Except.error (PyErr.valueError s!"Unrecognized value for item_name {n}")
          else
            Except.ok (setAttr item "value" (_clean t src))
      | Option.none =>
          Except.error (PyErr.valueError s!"Missing entry_name value for item_name {n}")
  | _ =>
      Except.error (PyErr.typeError
        s!"entry_val must be a string for item_name {n} and entry_name type")

/-- Validate the items of a category value in order; any failing item
aborts the whole validation. -/
def validateItems (b : Bool) : List (String × PyVal) → Except PyErr CategoryVal
  | [] => Except.ok []
  | (n, v) :: rest =>
      match v with
      | PyVal.dict ientries => do
          let oi ← validateItem n ientries b
          let r ← validateItems b rest
          Except.ok ((n, oi) :: r)
      | _ => Except.error (PyErr.typeError
          s!"item_value must be a dict for item_name {n}")

/-- Modelled from the spec (§4.2): `_validate_category_val(category_val,
set_value_from_default)` — the whole-category schema validator, returning
a fresh normalized mapping (the deep-copy property is inherent to this
pure embedding). -/
def _validate_category_val (v : PyVal) (b : Bool) : Except PyErr CategoryVal :=
  match v with
  | PyVal.dict entries => validateItems b entries
  | _ => Except.error (PyErr.typeError "category_val must be a dictionary")

/-! ## Configuration Manager orchestration (spec §4.5) -/

/-- The persisted per-item view: category name → item name → stored item
definition (the storage collaborator's configuration relation, as read by
`_read_item_val`). -/
def ItemStore := String → String → Option ItemDef

/-- Effects of one `set_category_item_value_entry` call. -/
structure SetTrace where
  writes : Nat
  callbacks : Nat
  deriving DecidableEq

/-- Result of `set_category_item_value_entry`: the Python outcome, the
resulting storage state, and the effect counts. -/
structure SetResult where
  outcome : Except PyErr Unit
  store : ItemStore
  trace : SetTrace

/-- `_update_value_val`: set one item's `value` in storage. -/
def writeVal (st : ItemStore) (cat it : String) (newv : PyVal) : ItemStore :=
  fun c i =>
    if c = cat then
      if i = it then (st c i).map fun e => setAttr e "value" newv
      else st c i
    else st c i

/-- Modelled from the spec (§4.5): `set_category_item_value_entry(category,
item, new_value)` — read the current item (absent → not-found error);
no-op when the stored `value` already equals the new value (the required
equality short-circuit, before any validation, per
`test_set_category_item_value_entry_no_change`); otherwise validate
(enumeration membership or the Type Validator) and persist then notify.
`setEntryAux` is the continuation applied to the `_read_item_val`
result. -/
def setEntryAux (st : ItemStore) (cat it : String) (newv : PyVal) :
    Option ItemDef → SetResult
  | Option.none =>
      ⟨Except.error (PyErr.valueError
          s!"No detail found for the category_name: {cat} and item_name: {it}"),
        st, ⟨0, 0⟩⟩
  | some entry =>
      if alook "value" entry = some newv then ⟨Except.ok (), st, ⟨0, 0⟩⟩
      else if tyOf entry = "enumeration" then
        if newv = PyVal.str "" then
          ⟨Except.error (PyErr.valueError "entry_val cannot be empty"), st, ⟨0, 0⟩⟩
        else
          match alook "options" entry with
          | some (PyVal.list xs) =>
              if strMember newv xs then ⟨Except.ok (), writeVal st cat it newv, ⟨1, 1⟩⟩
              else
                ⟨Except.error (PyErr.valueError "new value does not exist in options enum"),
                  st, ⟨0, 0⟩⟩
          | _ =>
              ⟨Except.error (PyErr.valueError "new value does not exist in options enum"),
                st, ⟨0, 0⟩⟩
      else if _validate_type_value (tyOf entry) newv = PyVal.bool false then
        ⟨Except.error (PyErr.typeError s!"Unrecognized value name for item_name {it}"),
          st, ⟨0, 0⟩⟩
      else ⟨Except.ok (), writeVal st cat it newv, ⟨1, 1⟩⟩

def set_category_item_value_entry (st : ItemStore) (cat it : String) (newv : PyVal) :
    SetResult :=
  setEntryAux st cat it newv (st cat it)

/-- The change set of a bulk update: per item, old value and new value. -/
abbrev BulkChange := List (String × PyVal × PyVal)

/-- Modelled from the spec (§4.5): per-item validation of one requested
bulk update — unknown item is a key error, wrong structural shape a type
error, then enumeration/JSON/type-validator checks; returns `none` when
the new value equals the stored one (item skipped), `some (old, new)`
otherwise.  `checkBulkItemAux` is the continuation applied to the item
looked up in the category. -/
def bulkShapeCheck (t : String) (newv : PyVal) : Except PyErr Unit :=
  if t = "JSON" then
    match newv with
    | PyVal.dict _ => Except.ok ()
    | PyVal.str _ => Except.ok ()
    | _ => Except.error (PyErr.typeError
        "new value should be a valid dict Or a string literal, in double quotes")
  else
    match newv with
    | PyVal.str _ => Except.ok ()
    | _ => Except.error (PyErr.typeError "new value should be of type string")

def bulkValueCheck (n : String) (item : ItemDef) (newv : PyVal) : Except PyErr Unit :=
  if tyOf item = "enumeration" then
    if newv = PyVal.str "" then
      Except.error (PyErr.valueError "entry_val cannot be empty")
    else
      match alook "options" item with
      | some (PyVal.list xs) =>
          if strMember newv xs then Except.ok ()
          else Except.error (PyErr.valueError "new value does not exist in options enum")
      | _ => Except.error (PyErr.valueError "new value does not exist in options enum")
  else if _validate_type_value (tyOf item) newv = PyVal.bool false then
    Except.error (PyErr.typeError s!"Unrecognized value name for item_name {n}")
  else Except.ok ()

def checkBulkItemAux (n : String) (newv : PyVal) :
    Option ItemDef → Except PyErr (Option (PyVal × PyVal))
  | Option.none => Except.error (PyErr.keyError s!"{n} config item not found")
  | some item => do
      bulkShapeCheck (tyOf item) newv
      bulkValueCheck n item newv
      if (alook "value" item).getD PyVal.none = newv then Except.ok Option.none
      else Except.ok (some ((alook "value" item).getD PyVal.none, newv))

def checkBulkItem (ci : CategoryVal) (n : String) (newv : PyVal) :
    Except PyErr (Option (PyVal × PyVal)) :=
  checkBulkItemAux n newv (alook n ci)

/-- Validate every requested item in order and collect the changed ones
(equal-valued items are skipped). -/
def collectDiffs (ci : CategoryVal) : List (String × PyVal) → Except PyErr BulkChange
  | [] => Except.ok []
  | (n, v) :: rest => do
      let d ← checkBulkItem ci n v
      let ds ← collectDiffs ci rest
      Except.ok
        (match d with
         | some p => (n, p.1, p.2) :: ds
         | Option.none => ds)

/-- Result of `update_configuration_item_bulk`: the Python outcome (`none`
embeds the Python `None` returned on a no-change call) and the effect
counts — storage updates, audit records (category with per-item old/new
values), and callback rounds. -/
structure BulkResult where
  outcome : Except PyErr (Option BulkChange)
  updates : Nat
  audits : List (String × BulkChange)
  callbacks : Nat

/-- Modelled from the spec (§4.5): `update_configuration_item_bulk(category,
{item: new_value, ...})` — load the category once (`none` means the
category does not exist → name error), validate each requested item, skip
unchanged ones; a non-empty change set issues exactly one combined storage
update, then one audit record summarizing old→new per changed item, then
one round of callbacks; an empty change set performs nothing and returns
`None`.  `bulkAux` is the continuation applied to the collected change
set. -/
def bulkAux (catName : String) : Except PyErr BulkChange → BulkResult
  | Except.error e => ⟨Except.error e, 0, [], 0⟩
  | Except.ok [] => ⟨Except.ok Option.none, 0, [], 0⟩
  | Except.ok (d :: ds) =>
      ⟨Except.ok (some (d :: ds)), 1, [(catName, d :: ds)], 1⟩

def update_configuration_item_bulk (catInfo : Option CategoryVal) (catName : String)
    (items : List (String × PyVal)) : BulkResult :=
  match catInfo with
  | Option.none =>
      ⟨Except.error (PyErr.nameError s!"No such Category found for {catName}"), 0, [], 0⟩
  | some ci => bulkAux catName (collectDiffs ci items)

/-- The persisted category view: category name → stored raw value blob
(the storage collaborator's row, as read by `_read_category_val`). -/
def CatStore := String → Option PyVal

/-- Effects of one `create_category` call: storage reads, storage writes
(create or update), merge-engine invocations, callback rounds, and error
log records. -/
structure CmTrace where
  reads : Nat
  writes : Nat
  merges : Nat
  callbacks : Nat
  logs : Nat
  deriving DecidableEq

/-- Result of `create_category`: the Python outcome (`some prepared` is the
category value the call proceeded with, `none` embeds the `None` returned
by the idempotent no-change path) and the effect trace. -/
structure CreateResult where
  outcome : Except PyErr (Option CategoryVal)
  trace : CmTrace

/-- Modelled from the spec (§4.5): `create_category(name, value,
description, ...)` — validate the new value (failure: log and re-raise with
no storage I/O and no callbacks); read storage; create fresh and notify
when absent; when the stored value fails re-validation (corruption), log
and proceed with the freshly validated value only, skipping the merge but
still notifying; when valid, merge, and either return `None` untouched
(merge result equals storage) or update and notify.  The `createCatAux*`
functions are the continuations applied, in order, to the validation of
the new value, the storage read, and the re-validation of the stored
value. -/
def createCatAux3 (prepared : CategoryVal) (keep_original_items : Bool) (name : String) :
    Except PyErr CategoryVal → CreateResult
  | Except.error _ => ⟨Except.ok (some prepared), ⟨1, 0, 0, 1, 1⟩⟩
  | Except.ok svv =>
      let merged := _merge_category_vals prepared svv keep_original_items name
      if merged = svv then ⟨Except.ok Option.none, ⟨1, 0, 1, 0, 0⟩⟩
      else ⟨Except.ok (some merged), ⟨2, 1, 1, 1, 0⟩⟩

def createCatAux2 (prepared : CategoryVal) (keep_original_items : Bool) (name : String) :
    Option PyVal → CreateResult
  | Option.none => ⟨Except.ok (some prepared), ⟨1, 1, 0, 1, 0⟩⟩
  | some sv => createCatAux3 prepared keep_original_items name (_validate_category_val sv false)

def createCatAux1 (store : CatStore) (name : String) (keep_original_items : Bool) :
    Except PyErr CategoryVal → CreateResult
  | Except.error e => ⟨Except.error e, ⟨0, 0, 0, 0, 1⟩⟩
  | Except.ok prepared => createCatAux2 prepared keep_original_items name (store name)

def create_category (store : CatStore) (name : String) (value : PyVal)
    (_description : String) (keep_original_items : Bool) : CreateResult :=
  createCatAux1 store name keep_original_items (_validate_category_val value true)

/-! ## Statistics counter store (spec §6) -/

/-- Modelled from the spec (§6): `update(key, increment)` of the statistics
counter store — non-string keys are rejected with a type error, non-integer
increments with a value error, and an unregistered key (its row is absent
from the backing `statistics` relation, so the atomic increment touches no
row) raises a key error. -/
def stats_update (registered : List String) (key inc : PyVal) : Except PyErr Unit :=
  match key with
  | PyVal.str s =>
      match inc with
      | PyVal.int _ =>
          if s ∈ registered then Except.ok ()
          else Except.error (PyErr.keyError s)
      | _ => Except.error (PyErr.valueError "value must be an integer")
  | _ => Except.error (PyErr.typeError "key must be a string")

/-- Modelled from the spec (§6): `add_update({key: increment, ...})` —
apply each increment in order under the same checks as `update`; the first
failing entry aborts the call. -/
def stats_add_update (registered : List String) :
    List (PyVal × PyVal) → Except PyErr Unit
  | [] => Except.ok ()
  | (k, v) :: rest => do
      stats_update registered k v
      stats_add_update registered rest

/-! ## Audit logger (embedded from `src/python/foglamp/common/audit_logger.py`) -/

/-- One `insert_into_tbl(table, payload)` request issued to the storage
client. -/
structure InsertCall where
  table : String
  payload : PyVal
  deriving DecidableEq

/-- Outcome of one audit-logger call: the storage inserts attempted, the
number of `_logger.exception` records emitted, and the Python result. -/
structure AuditOutcome where
  inserts : List InsertCall
  logged : Nat
  result : Except PyErr Unit

/-- Python `x is None`. -/
def isPyNone : PyVal → Bool
  | PyVal.none => true
  | _ => false

/-- Python `str(x)` as applied to the extracted error message. -/
def pyStr : PyVal → String
  | PyVal.str s => s
  | PyVal.int n => toString n
  | PyVal.bool b => if b then "True" else "False"
  | PyVal.none => "None"
  | _ => ""

namespace AuditLogger

/-- The log levels, as defined in init.sql (`audit_logger.py` lines 36-39). -/
def _success : Int := 0

def _failure : Int := 1

def _warning : Int := 2

def _information : Int := 4

/-- The insert payload built by `PayloadBuilder().INSERT(...)`: `code` and
`level` always, `log` only when not `None` (`audit_logger.py` lines 54-57). -/
def payloadOf (level : Int) (code : String) (log : Option PyVal) : InsertCall :=
  ⟨"log",
    PyVal.dict
      (match log with
       | Option.none => [("code", PyVal.str code), ("level", PyVal.int level)]
       | some l => [("code", PyVal.str code), ("level", PyVal.int level), ("log", l)])⟩

/-- `AuditLogger._log` (`audit_logger.py` lines 52-72): build the payload,
insert into the `log` table, and if the response is a dict whose
`.get('message', None)` is not `None`, raise `Exception(str(message))`;
any exception is logged via `_logger.exception` and re-raised.  The
storage client's behaviour is the oracle `ins`; `logResponse` is the
continuation applied to the insert's outcome. -/
def logResponse (call : InsertCall) : Except PyErr PyVal → AuditOutcome
  | Except.error e => ⟨[call], 1, Except.error e⟩
  | Except.ok out =>
      match out with
      | PyVal.dict kvs =>
          match alook "message" kvs with
          | some m =>
              if isPyNone m then ⟨[call], 0, Except.ok ()⟩
              else ⟨[call], 1, Except.error (PyErr.exception (pyStr m))⟩
          | Option.none => ⟨[call], 0, Except.ok ()⟩
      | _ => ⟨[call], 0, Except.ok ()⟩

def _log (ins : InsertCall → Except PyErr PyVal) (level : Int) (code : String)
    (log : Option PyVal) : AuditOutcome :=
  logResponse (payloadOf level code log) (ins (payloadOf level code log))

/-- `AuditLogger.success` (`audit_logger.py` lines 74-75). -/
def success (ins : InsertCall → Except PyErr PyVal) (code : String)
    (log : Option PyVal) : AuditOutcome :=
  _log ins _success code log

/-- `AuditLogger.failure` (`audit_logger.py` lines 77-78). -/
def failure (ins : InsertCall → Except PyErr PyVal) (code : String)
    (log : Option PyVal) : AuditOutcome :=
  _log ins _failure code log

/-- `AuditLogger.warning` (`audit_logger.py` lines 80-81). -/
def warning (ins : InsertCall → Except PyErr PyVal) (code : String)
    (log : Option PyVal) : AuditOutcome :=
  _log ins _warning code log

/-- `AuditLogger.information` (`audit_logger.py` lines 83-84). -/
def information (ins : InsertCall → Except PyErr PyVal) (code : String)
    (log : Option PyVal) : AuditOutcome :=
  _log ins _information code log

end AuditLogger

/-! ## Theorems -/

/-- Master lookup characterization of the merge engine. -/
theorem alook_merge (catNew catStorage : CategoryVal) (keep : Bool) (cn n : String)
    (hn : (catNew.map Prod.fst).Nodup) :
    alook n (_merge_category_vals catNew catStorage keep cn) =
      match alook n catNew, alook n catStorage with
      | some i, some s =>
          if itemDeprecated i then Option.none
          else some (setAttr i "value" ((alook "value" s).getD PyVal.none))
      | some i, Option.none =>
          if itemDeprecated i then Option.none else some i
      | Option.none, some s => if keep then some s else Option.none
      | Option.none, Option.none => Option.none := by
  simp only [_merge_category_vals]
  rw [alook_append, alook_map_keyfn,
    alook_filter_val catNew (fun i => !itemDeprecated i) n hn]
  have hk := alook_filter_key catStorage (fun k => (alook k catNew).isNone) n
  cases hN : alook n catNew with
  | none =>
      cases keep <;> cases hS : alook n catStorage <;>
        simp [hk, hN, hS, alook]
  | some i =>
      cases hdep : itemDeprecated i <;> cases keep <;> cases hS : alook n catStorage <;>
        simp [hk, hN, hS, hdep, mergeItem, alook]

/-- C1: for every pair of category definitions and every
`keep_original_items` flag, `_merge_category_vals` keeps, for items in both
inputs, every attribute from new except `value` (taken from storage);
carries storage-only items through unchanged exactly when
`keep_original_items`; always includes new-only items with new's own value;
and drops any item whose new definition has `deprecated == "true"`. -/
theorem merge_category_vals_spec (catNew catStorage : CategoryVal) (keep : Bool)
    (cn : String) (hn : (catNew.map Prod.fst).Nodup) (n : String) :
    (∀ i, alook n catNew = some i → itemDeprecated i = true →
        alook n (_merge_category_vals catNew catStorage keep cn) = Option.none)
    ∧ (∀ i s, alook n catNew = some i → itemDeprecated i = false →
        alook n catStorage = some s →
        alook n (_merge_category_vals catNew catStorage keep cn) =
          some (setAttr i "value" ((alook "value" s).getD PyVal.none)))
    ∧ (∀ i, alook n catNew = some i → itemDeprecated i = false →
        alook n catStorage = Option.none →
        alook n (_merge_category_vals catNew catStorage keep cn) = some i)
    ∧ (∀ s, alook n catNew = Option.none → alook n catStorage = some s →
        alook n (_merge_category_vals catNew catStorage keep cn) =
          if keep then some s else Option.none) := by
  have h := alook_merge catNew catStorage keep cn n hn
  refine ⟨?_, ?_, ?_, ?_⟩
  · intro i hi hdep
    rw [h, hi]
    cases hS : alook n catStorage <;> simp [hdep]
  · intro i s hi hdep hs
    rw [h, hi, hs]
    simp [hdep]
  · intro i hi hdep hs
    rw [h, hi, hs]
    simp [hdep]
  · intro s hi hs
    rw [h, hi, hs]

/-- Witness for C1 at concrete inputs: an item present in both definitions
keeps new's attributes while its value comes from storage. -/
theorem merge_category_vals_spec_witness :
    alook "i2" (_merge_category_vals
      [("i1", [("deprecated", PyVal.str "true"), ("value", PyVal.str "x")]),
       ("i2", [("description", PyVal.str "d"), ("value", PyVal.str "nv")])]
      [("i2", [("value", PyVal.str "sv")])] true "cat") =
      some (setAttr [("description", PyVal.str "d"), ("value", PyVal.str "nv")]
        "value" (PyVal.str "sv")) := by
  have h := (merge_category_vals_spec
    [("i1", [("deprecated", PyVal.str "true"), ("value", PyVal.str "x")]),
     ("i2", [("description", PyVal.str "d"), ("value", PyVal.str "nv")])]
    [("i2", [("value", PyVal.str "sv")])] true "cat" (by decide) "i2").2.1
    [("description", PyVal.str "d"), ("value", PyVal.str "nv")]
    [("value", PyVal.str "sv")] rfl rfl rfl
  simpa using h

/-- Did this `Except` computation raise? -/
def isErr {ε α : Type} : Except ε α → Bool
  | Except.error _ => true
  | Except.ok _ => false

theorem alook_some_mem {α : Type} {m : List (String × α)} {k : String} {v : α}
    (h : alook k m = some v) : (k, v) ∈ m := by
  induction m with
  | nil => simp [alook] at h
  | cons p rest ih =>
      obtain ⟨k₀, v₀⟩ := p
      by_cases hk : k = k₀
      · subst hk
        rw [alook, if_pos rfl] at h
        injection h with h2
        subst h2
        exact List.mem_cons_self _ _
      · rw [alook, if_neg hk] at h
        exact List.mem_cons_of_mem _ (ih h)

theorem isErr_bind_of_left {ε α β : Type} {x : Except ε α} {f : α → Except ε β}
    (h : isErr x = true) : isErr (x >>= f) = true := by
  cases x with
  | error e => rfl
  | ok a => simp [isErr] at h

theorem isErr_bind_of_right {ε α β : Type} {x : Except ε α} {f : α → Except ε β} {a : α}
    (hx : x = Except.ok a) (h : isErr (f a) = true) : isErr (x >>= f) = true := by
  subst hx
  simpa [Except.bind] using h

theorem scanEntries_isError {n : String} {item : ItemDef} {b : Bool} {k : String}
    {v : PyVal} (herr : isErr (checkEntry n item b k v) = true) :
    ∀ {entries : List (String × PyVal)}, (k, v) ∈ entries →
      isErr (scanEntries n item b entries) = true := by
  intro entries
  induction entries with
  | nil => intro h; simp at h
  | cons p rest ih =>
      intro hmem
      obtain ⟨k', v'⟩ := p
      have hgoal :
          scanEntries n item b ((k', v') :: rest) =
            checkEntry n item b k' v' >>= fun _ => scanEntries n item b rest := rfl
      rcases List.mem_cons.mp hmem with hhd | htl
      · cases hhd
        rw [hgoal]
        exact isErr_bind_of_left herr
      · cases hc : checkEntry n item b k' v' with
        | error e =>
            rw [hgoal]
            exact isErr_bind_of_left (by rw [hc]; rfl)
        | ok a =>
            rw [hgoal]
            exact isErr_bind_of_right hc (ih htl)

theorem ok_bind {ε α β : Type} (a : α) (f : α → Except ε β) :
    (Except.ok a >>= f) = f a := rfl

theorem error_bind {ε α β : Type} (e : ε) (f : α → Except ε β) :
    (Except.error e >>= f : Except ε β) = Except.error e := rfl

/-- Scanning an item that supplies `value` always fails in
set-value-from-default mode: the `value` entry itself is rejected. -/
theorem checkEntry_value_true (n : String) (item : ItemDef) (v : PyVal) :
    isErr (checkEntry n item true "value" v) = true := by
  delta checkEntry
  cases v <;> simp [ok_bind, error_bind, isErr] <;> split_ifs <;>
    simp [ok_bind, error_bind, isErr]

/-- In use-supplied-value mode, an item without a `value` entry fails the
mandatory-attribute check. -/
theorem checkMandatory_no_value (n : String) (item : ItemDef)
    (h : alook "value" item = Option.none) :
    isErr (checkMandatory n item false) = true := by
  delta checkMandatory
  split_ifs with h1 h2 h3 h4 <;> simp_all [isErr]

theorem validateItem_isError_of_scan {n : String} {item : ItemDef} {b : Bool}
    (h : isErr (scanEntries n item b item) = true) :
    isErr (validateItem n item b) = true := by
  delta validateItem
  cases hsc : scanEntries n item b item with
  | error e => rw [error_bind]; rfl
  | ok a => rw [hsc] at h; simp [isErr] at h

theorem validateItem_isError_of_mandatory {n : String} {item : ItemDef} {b : Bool}
    (h : isErr (checkMandatory n item b) = true) :
    isErr (validateItem n item b) = true := by
  delta validateItem
  cases hsc : scanEntries n item b item with
  | error e => rw [error_bind]; rfl
  | ok a =>
      rw [ok_bind]
      cases hcm : checkMandatory n item b with
      | error e => rw [error_bind]; rfl
      | ok u => rw [hcm] at h; simp [isErr] at h

/-- Success characterization of `validateItem`: the output is the input
with `value` set to the normalized chosen source. -/
theorem validateItem_ok {n : String} {item : ItemDef} {b : Bool} {oi : ItemDef}
    (h : validateItem n item b = Except.ok oi) :
    ∃ t src, alook "type" item = some (PyVal.str t) ∧
      (if b then alook "default" item else alook "value" item) = some src ∧
      oi = setAttr item "value" (_clean t src) := by
  delta validateItem at h
  cases hsc : scanEntries n item b item with
  | error e => rw [hsc, error_bind] at h; exact absurd h (by simp)
  | ok a =>
      rw [hsc, ok_bind] at h
      cases hcm : checkMandatory n item b with
      | error e => rw [hcm, error_bind] at h; exact absurd h (by simp)
      | ok u =>
          rw [hcm, ok_bind] at h
          split at h
          next t heq =>
            split at h
            next src hsrc =>
              split at h
              next hval => exact absurd h (by simp)
              next hval =>
                injection h with h2
                exact ⟨t, src, heq, hsrc, h2.symm⟩
            next hsrc => exact absurd h (by simp)
          next x hx => exact absurd h (by simp)

/-- A failing item makes the whole category validation fail. -/
theorem validateItems_isError {b : Bool} {n : String} {item : ItemDef}
    (herr : isErr (validateItem n item b) = true) :
    ∀ {entries : List (String × PyVal)}, (n, PyVal.dict item) ∈ entries →
      isErr (validateItems b entries) = true := by
  intro entries
  induction entries with
  | nil => intro h; simp at h
  | cons p rest ih =>
      intro hmem
      obtain ⟨n', v'⟩ := p
      rcases List.mem_cons.mp hmem with hhd | htl
      · cases hhd
        have hd : validateItems b ((n, PyVal.dict item) :: rest) =
            validateItem n item b >>= fun oi =>
              validateItems b rest >>= fun r => Except.ok ((n, oi) :: r) := rfl
        rw [hd]
        cases hv : validateItem n item b with
        | error e => rw [error_bind]; rfl
        | ok a => rw [hv] at herr; simp [isErr] at herr
      · cases v' with
        | dict ie =>
            have hd : validateItems b ((n', PyVal.dict ie) :: rest) =
                validateItem n' ie b >>= fun oi =>
                  validateItems b rest >>= fun r => Except.ok ((n', oi) :: r) := rfl
            rw [hd]
            cases hv : validateItem n' ie b with
            | error e => rw [error_bind]; rfl
            | ok a =>
                rw [ok_bind]
                exact isErr_bind_of_left (ih htl)
        | str s => rfl
        | int m => rfl
        | bool m => rfl
        | none => rfl
        | list xs => rfl

/-- Success characterization of `validateItems`: the output keeps the item
names in order, and each output item comes from validating the
corresponding input item. -/
theorem validateItems_ok {b : Bool} :
    ∀ {entries : List (String × PyVal)} {out : CategoryVal},
      validateItems b entries = Except.ok out →
      out.map Prod.fst = entries.map Prod.fst ∧
      ∀ p ∈ out, ∃ ientries, (p.1, PyVal.dict ientries) ∈ entries ∧
        validateItem p.1 ientries b = Except.ok p.2 := by
  intro entries
  induction entries with
  | nil =>
      intro out h
      have h2 : Except.ok ([] : CategoryVal) = Except.ok out := h
      injection h2 with h3
      subst h3
      exact ⟨rfl, by simp⟩
  | cons p rest ih =>
      intro out h
      obtain ⟨n2, v2⟩ := p
      cases v2 with
      | dict ie =>
          have hd : validateItems b ((n2, PyVal.dict ie) :: rest) =
              validateItem n2 ie b >>= fun oi =>
                validateItems b rest >>= fun r => Except.ok ((n2, oi) :: r) := rfl
          rw [hd] at h
          cases hv : validateItem n2 ie b with
          | error e => rw [hv, error_bind] at h; exact absurd h (by simp)
          | ok oi =>
              rw [hv, ok_bind] at h
              cases hr : validateItems b rest with
              | error e => rw [hr, error_bind] at h; exact absurd h (by simp)
              | ok r =>
                  rw [hr, ok_bind] at h
                  injection h with h2
                  subst h2
                  obtain ⟨hkeys, hmem⟩ := ih hr
                  refine ⟨by simp [hkeys], ?_⟩
                  intro q hq
                  rcases List.mem_cons.mp hq with hq1 | hq2
                  · subst hq1
                    exact ⟨ie, List.mem_cons_self _ _, hv⟩
                  · obtain ⟨ie2, hmem2, hval2⟩ := hmem q hq2
                    exact ⟨ie2, List.mem_cons_of_mem _ hmem2, hval2⟩
      | str s =>
          rw [show validateItems b ((n2, PyVal.str s) :: rest) =
              Except.error (PyErr.typeError
                s!"item_value must be a dict for item_name {n2}") from rfl] at h
          exact absurd h (by simp)
      | int m =>
          rw [show validateItems b ((n2, PyVal.int m) :: rest) =
              Except.error (PyErr.typeError
                s!"item_value must be a dict for item_name {n2}") from rfl] at h
          exact absurd h (by simp)
      | bool m =>
          rw [show validateItems b ((n2, PyVal.bool m) :: rest) =
              Except.error (PyErr.typeError
                s!"item_value must be a dict for item_name {n2}") from rfl] at h
          exact absurd h (by simp)
      | none =>
          rw [show validateItems b ((n2, PyVal.none) :: rest) =
              Except.error (PyErr.typeError
                s!"item_value must be a dict for item_name {n2}") from rfl] at h
          exact absurd h (by simp)
      | list xs =>
          rw [show validateItems b ((n2, PyVal.list xs) :: rest) =
              Except.error (PyErr.typeError
                s!"item_value must be a dict for item_name {n2}") from rfl] at h
          exact absurd h (by simp)

/-- C2: for every item definition passed to `_validate_category_val`, in
set-value-from-default mode the presence of a `value` entry makes
validation fail and a successful output's `value` is derived from
`default`; in use-supplied-value mode the absence of a `value` entry makes
validation fail and a successful output's `value` is derived from the
supplied `value`. -/
theorem validate_category_val_value_mode (entries : List (String × PyVal)) (n : String)
    (item : ItemDef) (hmem : (n, PyVal.dict item) ∈ entries) :
    ((alook "value" item).isSome = true →
        isErr (_validate_category_val (PyVal.dict entries) true) = true)
    ∧ ((alook "value" item).isNone = true →
        isErr (_validate_category_val (PyVal.dict entries) false) = true)
    ∧ (∀ oi, validateItem n item true = Except.ok oi →
        ∃ t d, alook "type" item = some (PyVal.str t) ∧ alook "default" item = some d ∧
          alook "value" oi = some (_clean t d))
    ∧ (∀ oi, validateItem n item false = Except.ok oi →
        ∃ t w, alook "type" item = some (PyVal.str t) ∧ alook "value" item = some w ∧
          alook "value" oi = some (_clean t w)) := by
  refine ⟨?_, ?_, ?_, ?_⟩
  · intro hval
    obtain ⟨v, hv⟩ := Option.isSome_iff_exists.mp hval
    exact validateItems_isError
      (validateItem_isError_of_scan
        (scanEntries_isError (checkEntry_value_true n item v) (alook_some_mem hv))) hmem
  · intro hval
    exact validateItems_isError
      (validateItem_isError_of_mandatory
        (checkMandatory_no_value n item (Option.isNone_iff_eq_none.mp hval))) hmem
  · intro oi hok
    obtain ⟨t, src, hty, hsrc, hoi⟩ := validateItem_ok hok
    simp only [if_pos rfl] at hsrc
    exact ⟨t, src, hty, hsrc, by rw [hoi]; exact alook_setAttr_self ..⟩
  · intro oi hok
    obtain ⟨t, src, hty, hsrc, hoi⟩ := validateItem_ok hok
    simp only [Bool.false_eq_true, if_false] at hsrc
    exact ⟨t, src, hty, hsrc, by rw [hoi]; exact alook_setAttr_self ..⟩

/-- Witness for C2: a concrete item carrying `value` is rejected in
set-value-from-default mode. -/
theorem validate_category_val_value_mode_witness :
    isErr (_validate_category_val
      (PyVal.dict [("i", PyVal.dict
        [("description", PyVal.str "d"), ("type", PyVal.str "string"),
         ("default", PyVal.str "v"), ("value", PyVal.str "w")])]) true) = true :=
  (validate_category_val_value_mode _ "i"
    [("description", PyVal.str "d"), ("type", PyVal.str "string"),
     ("default", PyVal.str "v"), ("value", PyVal.str "w")]
    (List.mem_cons_self _ _)).1 rfl

/-- C8: a successful `_validate_category_val` run returns, for each item,
exactly the attributes supplied plus a `value` attribute (non-`value`
attributes keep their supplied values); the input is untouched, which in
this pure embedding holds by construction. -/
theorem validate_category_val_exact_attrs (v : PyVal) (b : Bool) (out : CategoryVal)
    (h : _validate_category_val v b = Except.ok out) :
    ∃ entries, v = PyVal.dict entries ∧
      out.map Prod.fst = entries.map Prod.fst ∧
      ∀ p ∈ out, ∃ ientries, (p.1, PyVal.dict ientries) ∈ entries ∧
        p.2.map Prod.fst =
          (if (alook "value" ientries).isSome then ientries.map Prod.fst
           else ientries.map Prod.fst ++ ["value"]) ∧
        ∀ k, k ≠ "value" → alook k p.2 = alook k ientries := by
  cases v
  case dict entries =>
      refine ⟨entries, rfl, ?_⟩
      obtain ⟨hkeys, hmem⟩ := validateItems_ok (show validateItems b entries = Except.ok out from h)
      refine ⟨hkeys, ?_⟩
      intro p hp
      obtain ⟨ie, hin, hok⟩ := hmem p hp
      obtain ⟨t, src, hty, hsrc, hoi⟩ := validateItem_ok hok
      refine ⟨ie, hin, ?_, ?_⟩
      · rw [hoi, keys_setAttr]
      · intro k hk
        rw [hoi]
        exact alook_setAttr_ne _ _ hk
  all_goals (delta _validate_category_val at h; simp at h)

/-- Witness for C8 at a concrete valid category: the validated item gets
exactly the three supplied attributes plus `value`. -/
theorem validate_category_val_exact_attrs_witness :
    ∃ entries,
      (PyVal.dict [("x", PyVal.dict
        [("description", PyVal.str "d"), ("type", PyVal.str "string"),
         ("default", PyVal.str "v")])]) = PyVal.dict entries ∧
      ([("x", [("description", PyVal.str "d"), ("type", PyVal.str "string"),
          ("default", PyVal.str "v"), ("value", PyVal.str "v")])].map Prod.fst
        = entries.map Prod.fst) ∧
      ∀ p ∈ ([("x", [("description", PyVal.str "d"), ("type", PyVal.str "string"),
          ("default", PyVal.str "v"), ("value", PyVal.str "v")])] : CategoryVal),
        ∃ ientries, (p.1, PyVal.dict ientries) ∈ entries ∧
          p.2.map Prod.fst =
            (if (alook "value" ientries).isSome then ientries.map Prod.fst
             else ientries.map Prod.fst ++ ["value"]) ∧
          ∀ k, k ≠ "value" → alook k p.2 = alook k ientries :=
  validate_category_val_exact_attrs
    (PyVal.dict [("x", PyVal.dict
      [("description", PyVal.str "d"), ("type", PyVal.str "string"),
       ("default", PyVal.str "v")])]) true
    [("x", [("description", PyVal.str "d"), ("type", PyVal.str "string"),
      ("default", PyVal.str "v"), ("value", PyVal.str "v")])]
    (by rfl)

/-- Equal stored value: the call is a pure no-op. -/
theorem set_entry_noop (st : ItemStore) (cat it : String) (v : PyVal) (e : ItemDef)
    (hread : st cat it = some e) (hv : alook "value" e = some v) :
    set_category_item_value_entry st cat it v = ⟨Except.ok (), st, ⟨0, 0⟩⟩ := by
  rw [set_category_item_value_entry, hread]
  simp [setEntryAux, hv]

/-- Any successful `setEntryAux` run on an existing item either hit the
equality short-circuit (no write) or wrote the new value once. -/
theorem setEntryAux_ok (st : ItemStore) (cat it : String) (v : PyVal) (entry : ItemDef)
    (st' : ItemStore) (tr : SetTrace)
    (h : setEntryAux st cat it v (some entry) = ⟨Except.ok (), st', tr⟩) :
    (alook "value" entry = some v ∧ st' = st ∧ tr = ⟨0, 0⟩) ∨
    (alook "value" entry ≠ some v ∧ st' = writeVal st cat it v ∧ tr = ⟨1, 1⟩) := by
  by_cases hv : alook "value" entry = some v
  · left
    rw [show setEntryAux st cat it v (some entry) = ⟨Except.ok (), st, ⟨0, 0⟩⟩ from by
      simp [setEntryAux, hv]] at h
    injection h with h1 h2 h3
    exact ⟨hv, h2.symm, h3.symm⟩
  · right
    refine ⟨hv, ?_⟩
    simp only [setEntryAux, if_neg hv] at h
    by_cases hty : tyOf entry = "enumeration"
    · rw [if_pos hty] at h
      by_cases hemp : v = PyVal.str ""
      · rw [if_pos hemp] at h
        exact absurd h (by simp)
      · rw [if_neg hemp] at h
        split at h
        next xs hopt =>
          by_cases hm : strMember v xs
          · rw [if_pos hm] at h
            injection h with h1 h2 h3
            exact ⟨h2.symm, h3.symm⟩
          · rw [if_neg hm] at h
            exact absurd h (by simp)
        next hopt => exact absurd h (by simp)
    · rw [if_neg hty] at h
      by_cases hval : _validate_type_value (tyOf entry) v = PyVal.bool false
      · rw [if_pos hval] at h
        exact absurd h (by simp)
      · rw [if_neg hval] at h
        injection h with h1 h2 h3
        exact ⟨h2.symm, h3.symm⟩

/-- Calling again right after a successful write is a no-op: the write put
the new value into the stored item. -/
theorem set_entry_after_write (st : ItemStore) (cat it : String) (v : PyVal)
    (entry : ItemDef) (hread : st cat it = some entry) :
    set_category_item_value_entry (writeVal st cat it v) cat it v =
      ⟨Except.ok (), writeVal st cat it v, ⟨0, 0⟩⟩ := by
  have hr : writeVal st cat it v cat it = some (setAttr entry "value" v) := by
    simp [writeVal, hread]
  rw [set_category_item_value_entry, hr]
  simp [setEntryAux, alook_setAttr_self]

/-- C3: if the new value equals the currently stored value,
`set_category_item_value_entry` performs no storage write and no
notification; consequently two consecutive calls with the same new value
trigger exactly one storage write and one notification (the second call is
a no-op). -/
theorem set_category_item_value_entry_idempotent (st : ItemStore) (cat it : String)
    (v : PyVal) :
    (∀ e, st cat it = some e → alook "value" e = some v →
        set_category_item_value_entry st cat it v = ⟨Except.ok (), st, ⟨0, 0⟩⟩)
    ∧ (∀ st' tr, set_category_item_value_entry st cat it v = ⟨Except.ok (), st', tr⟩ →
        set_category_item_value_entry st' cat it v = ⟨Except.ok (), st', ⟨0, 0⟩⟩ ∧
        tr.writes ≤ 1 ∧ tr.callbacks = tr.writes ∧
        ∀ e, st cat it = some e → alook "value" e ≠ some v → tr = ⟨1, 1⟩) := by
  refine ⟨fun e he hv => set_entry_noop st cat it v e he hv, ?_⟩
  intro st' tr h
  rw [set_category_item_value_entry] at h
  cases hread : st cat it with
  | none =>
      rw [hread] at h
      exact absurd h (by simp [setEntryAux])
  | some entry =>
      rw [hread] at h
      rcases setEntryAux_ok st cat it v entry st' tr h with ⟨hv, hst, htr⟩ | ⟨hv, hst, htr⟩
      · subst htr
        rw [hst]
        refine ⟨set_entry_noop st cat it v entry hread hv, by simp, rfl, ?_⟩
        intro e he hne
        injection he with hee
        subst hee
        exact absurd hv hne
      · subst htr
        rw [hst]
        exact ⟨set_entry_after_write st cat it v entry hread, by simp, rfl,
          fun _ _ _ => rfl⟩

/-- Witness for C3: after one write of "newval" over "test", the second
identical call is a no-op (zero writes, zero notifications). -/
theorem set_category_item_value_entry_idempotent_witness :
    set_category_item_value_entry
      (writeVal
        (fun _ _ => some [("value", PyVal.str "test"), ("description", PyVal.str "Test desc"),
          ("type", PyVal.str "string"), ("default", PyVal.str "test")])
        "catname" "itemname" (PyVal.str "newvalentry"))
      "catname" "itemname" (PyVal.str "newvalentry") =
    ⟨Except.ok (),
      writeVal
        (fun _ _ => some [("value", PyVal.str "test"), ("description", PyVal.str "Test desc"),
          ("type", PyVal.str "string"), ("default", PyVal.str "test")])
        "catname" "itemname" (PyVal.str "newvalentry"),
      ⟨0, 0⟩⟩ := by
  have h : set_category_item_value_entry
      (fun _ _ => some [("value", PyVal.str "test"), ("description", PyVal.str "Test desc"),
        ("type", PyVal.str "string"), ("default", PyVal.str "test")])
      "catname" "itemname" (PyVal.str "newvalentry") =
      ⟨Except.ok (),
        writeVal
          (fun _ _ => some [("value", PyVal.str "test"), ("description", PyVal.str "Test desc"),
            ("type", PyVal.str "string"), ("default", PyVal.str "test")])
          "catname" "itemname" (PyVal.str "newvalentry"),
        ⟨1, 1⟩⟩ := by
    rw [set_category_item_value_entry]
    simp [setEntryAux, tyOf, alook, _validate_type_value]
  exact ((set_category_item_value_entry_idempotent _ "catname" "itemname"
    (PyVal.str "newvalentry")).2 _ _ h).1

/-- A successful per-item bulk check skips the item exactly when the new
value equals the stored one. -/
theorem checkBulkItemAux_ok_iff {n : String} {v : PyVal} {item : ItemDef}
    {d : Option (PyVal × PyVal)}
    (h : checkBulkItemAux n v (some item) = Except.ok d) :
    d = Option.none ↔ (alook "value" item).getD PyVal.none = v := by
  simp only [checkBulkItemAux] at h
  cases hA : bulkShapeCheck (tyOf item) v with
  | error e => rw [hA, error_bind] at h; exact absurd h (by simp)
  | ok a =>
      rw [hA, ok_bind] at h
      cases hB : bulkValueCheck n item v with
      | error e => rw [hB, error_bind] at h; exact absurd h (by simp)
      | ok b2 =>
          rw [hB, ok_bind] at h
          by_cases he : (alook "value" item).getD PyVal.none = v
          · rw [if_pos he] at h
            injection h with h2
            exact ⟨fun _ => he, fun _ => h2.symm⟩
          · rw [if_neg he] at h
            injection h with h2
            constructor
            · intro hd
              rw [← h2] at hd
              exact absurd hd (by simp)
            · intro hv
              exact absurd hv he

/-- The collected change set is empty exactly when every requested item's
new value equals its currently stored value. -/
theorem collectDiffs_nil_iff {ci : CategoryVal} :
    ∀ {items : List (String × PyVal)} {ds : BulkChange},
      collectDiffs ci items = Except.ok ds →
      (ds = [] ↔ ∀ p ∈ items, ∃ item, alook p.1 ci = some item ∧
        (alook "value" item).getD PyVal.none = p.2) := by
  intro items
  induction items with
  | nil =>
      intro ds h
      have h2 : Except.ok ([] : BulkChange) = Except.ok ds := h
      injection h2 with h3
      subst h3
      simp
  | cons p rest ih =>
      intro ds h
      obtain ⟨n, v⟩ := p
      have hd0 : collectDiffs ci ((n, v) :: rest) =
          checkBulkItem ci n v >>= fun d => collectDiffs ci rest >>= fun ds' =>
            Except.ok
              (match d with
               | some q => (n, q.1, q.2) :: ds'
               | Option.none => ds') := rfl
      rw [hd0] at h
      cases hd : checkBulkItem ci n v with
      | error e => rw [hd, error_bind] at h; exact absurd h (by simp)
      | ok d =>
          rw [hd, ok_bind] at h
          cases hr : collectDiffs ci rest with
          | error e => rw [hr, error_bind] at h; exact absurd h (by simp)
          | ok ds' =>
              rw [hr, ok_bind] at h
              injection h with h2
              rw [checkBulkItem] at hd
              cases hl : alook n ci with
              | none => rw [hl] at hd; exact absurd hd (by simp [checkBulkItemAux])
              | some item =>
                  rw [hl] at hd
                  have hiff := checkBulkItemAux_ok_iff hd
                  cases d with
                  | none =>
                      have hold : (alook "value" item).getD PyVal.none = v := hiff.mp rfl
                      subst h2
                      constructor
                      · intro hnil q hq
                        rcases List.mem_cons.mp hq with h1 | h1
                        · cases h1; exact ⟨item, hl, hold⟩
                        · exact (ih hr).mp hnil q h1
                      · intro hall
                        exact (ih hr).mpr fun q hq => hall q (List.mem_cons_of_mem _ hq)
                  | some q =>
                      have hne : (alook "value" item).getD PyVal.none ≠ v := by
                        intro hv
                        exact absurd (hiff.mpr hv) (by simp)
                      subst h2
                      constructor
                      · intro hnil; exact absurd hnil (by simp)
                      · intro hall
                        obtain ⟨item2, hl2, hold2⟩ := hall (n, v) (List.mem_cons_self _ _)
                        rw [hl] at hl2
                        injection hl2 with he2
                        subst he2
                        exact absurd hold2 hne

/-- C4: a bulk update whose requested values all equal the stored ones
performs no storage write, no audit record and no callback and returns
`None`; as soon as at least one value differs it issues exactly one
combined update, one audit record summarizing old/new per changed item,
and one round of callbacks. -/
theorem update_configuration_item_bulk_spec (ci : CategoryVal) (catName : String)
    (items : List (String × PyVal)) (ds : BulkChange)
    (h : collectDiffs ci items = Except.ok ds) :
    (ds = [] → update_configuration_item_bulk (some ci) catName items =
        ⟨Except.ok Option.none, 0, [], 0⟩)
    ∧ (ds ≠ [] → update_configuration_item_bulk (some ci) catName items =
        ⟨Except.ok (some ds), 1, [(catName, ds)], 1⟩)
    ∧ (ds = [] ↔ ∀ p ∈ items, ∃ item, alook p.1 ci = some item ∧
        (alook "value" item).getD PyVal.none = p.2) := by
  have hu : update_configuration_item_bulk (some ci) catName items =
      bulkAux catName (collectDiffs ci items) := rfl
  refine ⟨?_, ?_, collectDiffs_nil_iff h⟩
  · intro hnil
    subst hnil
    rw [hu, h]
    rfl
  · intro hne
    cases ds with
    | nil => exact absurd rfl hne
    | cons d ds' =>
        rw [hu, h]
        rfl

/-- Witness for C4, the spec's scenario: flipping `enableHttp` from "true"
to "false" in `rest_api` issues exactly one update, one audit record with
oldValue "true" / newValue "false", and one callback. -/
theorem update_configuration_item_bulk_spec_witness :
    update_configuration_item_bulk
      (some [("enableHttp", [("default", PyVal.str "true"),
        ("description", PyVal.str "Enable HTTP"), ("type", PyVal.str "boolean"),
        ("value", PyVal.str "true")])])
      "rest_api" [("enableHttp", PyVal.str "false")] =
      ⟨Except.ok (some [("enableHttp", PyVal.str "true", PyVal.str "false")]), 1,
        [("rest_api", [("enableHttp", PyVal.str "true", PyVal.str "false")])], 1⟩ := by
  have hval : _validate_type_value "boolean" (PyVal.str "false") = PyVal.bool true := rfl
  have h : collectDiffs
      [("enableHttp", [("default", PyVal.str "true"),
        ("description", PyVal.str "Enable HTTP"), ("type", PyVal.str "boolean"),
        ("value", PyVal.str "true")])]
      [("enableHttp", PyVal.str "false")] =
      Except.ok [("enableHttp", PyVal.str "true", PyVal.str "false")] := by
    simp [collectDiffs, checkBulkItem, checkBulkItemAux, bulkShapeCheck, bulkValueCheck,
      tyOf, alook, hval, ok_bind]
  exact (update_configuration_item_bulk_spec _ "rest_api" _ _ h).2.1 (by simp)

/-- C5 counterexample: a JSON list — a structured value the claim says is
accepted — is rejected (`_validate_type_value "JSON" []` is `False`, per
the spec's own boundary matrix and `test__validate_type_value_bad_data`). -/
theorem validate_type_value_json_list_counterexample :
    _validate_type_value "JSON" (PyVal.list []) = PyVal.bool false ∧
    ¬_validate_type_value "JSON" (PyVal.list []) = PyVal.bool true :=
  ⟨rfl, by simp [_validate_type_value]⟩

/-- C5 (amended): for declared type JSON, a value that is already a dict is
accepted; a string is accepted exactly when it parses as JSON text; and
booleans, bare unquoted strings (they fail to parse), `None`, lists, and
numbers-as-values are rejected. -/
theorem validate_type_value_json_spec :
    (∀ kvs, _validate_type_value "JSON" (PyVal.dict kvs) = PyVal.bool true)
    ∧ (∀ s, _validate_type_value "JSON" (PyVal.str s) = PyVal.bool (jsonParses s))
    ∧ (∀ b, _validate_type_value "JSON" (PyVal.bool b) = PyVal.bool false)
    ∧ _validate_type_value "JSON" PyVal.none = PyVal.bool false
    ∧ (∀ xs, _validate_type_value "JSON" (PyVal.list xs) = PyVal.bool false)
    ∧ (∀ i, _validate_type_value "JSON" (PyVal.int i) = PyVal.bool false)
    ∧ jsonParses "\x7b\x7d" = true ∧ jsonParses "[]" = true ∧ jsonParses "1" = true
    ∧ jsonParses "\x7b\"age\": 31\x7d" = true
    ∧ jsonParses "Blah" = false ∧ jsonParses "True" = false :=
  ⟨fun _ => rfl, fun _ => rfl, fun _ => rfl, rfl, fun _ => rfl, fun _ => rfl,
    rfl, rfl, rfl, rfl, rfl, rfl⟩

/-- C6: when schema validation of the supplied category value fails,
`create_category` performs no storage read, no storage write, no merge and
no interest callback; it logs once and re-raises the same validation
error. -/
theorem create_category_validation_failure_no_io (store : CatStore) (name : String)
    (value : PyVal) (desc : String) (keep : Bool) (e : PyErr)
    (h : _validate_category_val value true = Except.error e) :
    create_category store name value desc keep =
      ⟨Except.error e, ⟨0, 0, 0, 0, 1⟩⟩ := by
  rw [create_category, h]
  rfl

/-- Witness for C6: a non-dict category value aborts `create_category`
before any storage interaction. -/
theorem create_category_validation_failure_no_io_witness :
    create_category (fun _ => Option.none) "catname" (PyVal.str "catvalue") "catdesc"
        false =
      ⟨Except.error (PyErr.typeError "category_val must be a dictionary"),
        ⟨0, 0, 0, 0, 1⟩⟩ :=
  create_category_validation_failure_no_io _ "catname" (PyVal.str "catvalue") "catdesc"
    false _ rfl

/-- C7: when the stored category value exists but fails re-validation,
`create_category` logs the corruption, never invokes the merge engine,
proceeds with only the freshly validated new value (no write), and still
fires one round of interest callbacks. -/
theorem create_category_corrupted_storage_fallback (store : CatStore) (name : String)
    (value : PyVal) (desc : String) (keep : Bool) (prepared : CategoryVal) (sv : PyVal)
    (e : PyErr)
    (hval : _validate_category_val value true = Except.ok prepared)
    (hread : store name = some sv)
    (hcorrupt : _validate_category_val sv false = Except.error e) :
    create_category store name value desc keep =
      ⟨Except.ok (some prepared), ⟨1, 0, 0, 1, 1⟩⟩ := by
  rw [create_category, hval]
  show createCatAux2 prepared keep name (store name) = _
  rw [hread]
  show createCatAux3 prepared keep name (_validate_category_val sv false) = _
  rw [hcorrupt]
  rfl

/-- Witness for C7: a storage blob that is not even a dict triggers the
corrupted-storage fallback — no merge, one callback round, one log. -/
theorem create_category_corrupted_storage_fallback_witness :
    create_category (fun _ => some (PyVal.str "garbage")) "catname"
        (PyVal.dict [("x", PyVal.dict [("description", PyVal.str "d"),
          ("type", PyVal.str "string"), ("default", PyVal.str "v")])])
        "catdesc" false =
      ⟨Except.ok (some [("x", [("description", PyVal.str "d"),
          ("type", PyVal.str "string"), ("default", PyVal.str "v"),
          ("value", PyVal.str "v")])]),
        ⟨1, 0, 0, 1, 1⟩⟩ :=
  create_category_corrupted_storage_fallback _ "catname" _ "catdesc" false
    [("x", [("description", PyVal.str "d"), ("type", PyVal.str "string"),
      ("default", PyVal.str "v"), ("value", PyVal.str "v")])]
    (PyVal.str "garbage") (PyErr.typeError "category_val must be a dictionary")
    (by rfl) rfl rfl

/-- C9: the statistics counter store rejects non-string keys with a type
error and non-integer increments (including integer-formatted strings)
with a value error, and raises a key error for a key that was never
registered — for both `update` and `add_update`. -/
theorem statistics_update_invalid_params (registered : List String) (k v : PyVal)
    (rest : List (PyVal × PyVal)) :
    ((∀ s, k ≠ PyVal.str s) →
        stats_update registered k v =
          Except.error (PyErr.typeError "key must be a string") ∧
        stats_add_update registered ((k, v) :: rest) =
          Except.error (PyErr.typeError "key must be a string"))
    ∧ (∀ s, k = PyVal.str s → (∀ i : Int, v ≠ PyVal.int i) →
        stats_update registered k v =
          Except.error (PyErr.valueError "value must be an integer") ∧
        stats_add_update registered ((k, v) :: rest) =
          Except.error (PyErr.valueError "value must be an integer"))
    ∧ (∀ s i, k = PyVal.str s → v = PyVal.int i → s ∉ registered →
        stats_update registered k v = Except.error (PyErr.keyError s) ∧
        stats_add_update registered ((k, v) :: rest) =
          Except.error (PyErr.keyError s)) := by
  have hadd : ∀ e, stats_update registered k v = Except.error e →
      stats_add_update registered ((k, v) :: rest) = Except.error e := by
    intro e he
    show (stats_update registered k v >>= fun _ =>
      stats_add_update registered rest) = _
    rw [he, error_bind]
  refine ⟨?_, ?_, ?_⟩
  · intro hk
    have h1 : stats_update registered k v =
        Except.error (PyErr.typeError "key must be a string") := by
      cases k with
      | str s => exact absurd rfl (hk s)
      | int i => rfl
      | bool b => rfl
      | none => rfl
      | list xs => rfl
      | dict kvs => rfl
    exact ⟨h1, hadd _ h1⟩
  · intro s hk hv
    subst hk
    have h1 : stats_update registered (PyVal.str s) v =
        Except.error (PyErr.valueError "value must be an integer") := by
      cases v with
      | int i => exact absurd rfl (hv i)
      | str t => rfl
      | bool b => rfl
      | none => rfl
      | list xs => rfl
      | dict kvs => rfl
    exact ⟨h1, hadd _ h1⟩
  · intro s i hk hv hreg
    subst hk
    subst hv
    have h1 : stats_update registered (PyVal.str s) (PyVal.int i) =
        Except.error (PyErr.keyError s) := by
      simp [stats_update, hreg]
    exact ⟨h1, hadd _ h1⟩

/-- Witness for C9: an integer key is rejected with the type error by both
`update` and `add_update`. -/
theorem statistics_update_invalid_params_witness :
    stats_update [] (PyVal.int 123456) (PyVal.int 120) =
      Except.error (PyErr.typeError "key must be a string") ∧
    stats_add_update [] [(PyVal.int 123456, PyVal.int 120)] =
      Except.error (PyErr.typeError "key must be a string") :=
  (statistics_update_invalid_params [] (PyVal.int 123456) (PyVal.int 120) []).1
    (fun _ h => nomatch h)

theorem isPyNone_false_iff (m : PyVal) : isPyNone m = false ↔ m ≠ PyVal.none := by
  cases m <;> simp [isPyNone]

/-- Behaviour of the audit logger's response handling: always exactly the
one insert, raising iff the insert raised or the response is a dict whose
`message` value is present and not `None`, with one error log exactly on
the raising paths. -/
theorem logResponse_spec (c : InsertCall) (r : Except PyErr PyVal) :
    (AuditLogger.logResponse c r).inserts = [c]
    ∧ (isErr (AuditLogger.logResponse c r).result = true ↔
        (isErr r = true ∨ ∃ kvs m, r = Except.ok (PyVal.dict kvs) ∧
          alook "message" kvs = some m ∧ m ≠ PyVal.none))
    ∧ (AuditLogger.logResponse c r).logged =
        (if isErr (AuditLogger.logResponse c r).result = true then 1 else 0) := by
  cases r with
  | error e => exact ⟨rfl, by simp [AuditLogger.logResponse, isErr], rfl⟩
  | ok out =>
      cases out with
      | dict kvs =>
          cases halk : alook "message" kvs with
          | none =>
              refine ⟨by simp [AuditLogger.logResponse, halk], ?_, by simp [AuditLogger.logResponse, halk, isErr]⟩
              simp only [AuditLogger.logResponse, halk, isErr]
              constructor
              · intro hcontra; exact absurd hcontra (by simp)
              · rintro (hcontra | ⟨kvs2, m2, heq, halk2, hm2⟩)
                · exact absurd hcontra (by simp [isErr])
                · injection heq with heq2
                  injection heq2 with heq3
                  subst heq3
                  rw [halk] at halk2
                  exact absurd halk2 (by simp)
          | some m =>
              by_cases hn : isPyNone m = true
              · have hm : m = PyVal.none := by cases m <;> simp [isPyNone] at hn ⊢
                subst hm
                refine ⟨by simp [AuditLogger.logResponse, halk, isPyNone], ?_,
                  by simp [AuditLogger.logResponse, halk, isPyNone, isErr]⟩
                simp only [AuditLogger.logResponse, halk, isPyNone, if_pos rfl, isErr]
                constructor
                · intro hcontra; exact absurd hcontra (by simp)
                · rintro (hcontra | ⟨kvs2, m2, heq, halk2, hm2⟩)
                  · exact absurd hcontra (by simp [isErr])
                  · injection heq with heq2
                    injection heq2 with heq3
                    subst heq3
                    rw [halk] at halk2
                    injection halk2 with hm3
                    exact absurd hm3.symm hm2
              · have hn2 : isPyNone m = false := by simp at hn; exact hn
                refine ⟨by simp [AuditLogger.logResponse, halk, hn2], ?_,
                  by simp [AuditLogger.logResponse, halk, hn2, isErr]⟩
                simp only [AuditLogger.logResponse, halk, hn2, if_false, Bool.false_eq_true, isErr]
                constructor
                · intro _
                  exact Or.inr ⟨kvs, m, rfl, halk, (isPyNone_false_iff m).mp hn2⟩
                · intro _; trivial
      | str s =>
          refine ⟨rfl, ?_, rfl⟩
          simp only [AuditLogger.logResponse, isErr]
          constructor
          · intro hcontra; exact absurd hcontra (by simp)
          · rintro (hcontra | ⟨kvs2, m2, heq, halk2, hm2⟩)
            · exact absurd hcontra (by simp [isErr])
            · exact absurd heq (by simp)
      | int i =>
          refine ⟨rfl, ?_, rfl⟩
          simp only [AuditLogger.logResponse, isErr]
          constructor
          · intro hcontra; exact absurd hcontra (by simp)
          · rintro (hcontra | ⟨kvs2, m2, heq, halk2, hm2⟩)
            · exact absurd hcontra (by simp [isErr])
            · exact absurd heq (by simp)
      | bool b =>
          refine ⟨rfl, ?_, rfl⟩
          simp only [AuditLogger.logResponse, isErr]
          constructor
          · intro hcontra; exact absurd hcontra (by simp)
          · rintro (hcontra | ⟨kvs2, m2, heq, halk2, hm2⟩)
            · exact absurd hcontra (by simp [isErr])
            · exact absurd heq (by simp)
      | none =>
          refine ⟨rfl, ?_, rfl⟩
          simp only [AuditLogger.logResponse, isErr]
          constructor
          · intro hcontra; exact absurd hcontra (by simp)
          · rintro (hcontra | ⟨kvs2, m2, heq, halk2, hm2⟩)
            · exact absurd hcontra (by simp [isErr])
            · exact absurd heq (by simp)
      | list xs =>
          refine ⟨rfl, ?_, rfl⟩
          simp only [AuditLogger.logResponse, isErr]
          constructor
          · intro hcontra; exact absurd hcontra (by simp)
          · rintro (hcontra | ⟨kvs2, m2, heq, halk2, hm2⟩)
            · exact absurd hcontra (by simp [isErr])
            · exact absurd heq (by simp)

/-- C10 counterexample: a dict response that contains a `message` key whose
value is `None` does NOT raise — the code checks `.get('message', None) is
not None`, not key containment. -/
theorem audit_log_message_none_counterexample :
    (AuditLogger._log (fun _ => Except.ok (PyVal.dict [("message", PyVal.none)]))
        AuditLogger._success "START" Option.none).result = Except.ok () ∧
    alook "message" [("message", PyVal.none)] = some PyVal.none :=
  ⟨rfl, rfl⟩

/-- C10 (amended): each audit logging method delegates to `_log` with its
fixed level; `_log` attempts exactly one insert into the `log` table with
that level in the payload, raises iff the storage insert raised or
returned a dict response whose `message` value is present and not `None`,
and logs the failure exactly when it raises. -/
theorem audit_log_spec (ins : InsertCall → Except PyErr PyVal) (code : String)
    (log : Option PyVal) :
    (∀ level, (AuditLogger._log ins level code log).inserts =
        [AuditLogger.payloadOf level code log])
    ∧ (AuditLogger.success ins code log = AuditLogger._log ins 0 code log)
    ∧ (AuditLogger.failure ins code log = AuditLogger._log ins 1 code log)
    ∧ (AuditLogger.warning ins code log = AuditLogger._log ins 2 code log)
    ∧ (AuditLogger.information ins code log = AuditLogger._log ins 4 code log)
    ∧ (∀ level, isErr (AuditLogger._log ins level code log).result = true ↔
        (isErr (ins (AuditLogger.payloadOf level code log)) = true ∨
         ∃ kvs m, ins (AuditLogger.payloadOf level code log) =
             Except.ok (PyVal.dict kvs) ∧
           alook "message" kvs = some m ∧ m ≠ PyVal.none))
    ∧ (∀ level, (AuditLogger._log ins level code log).logged =
        (if isErr (AuditLogger._log ins level code log).result = true then 1 else 0)) := by
  refine ⟨?_, rfl, rfl, rfl, rfl, ?_, ?_⟩
  · intro level
    exact (logResponse_spec (AuditLogger.payloadOf level code log)
      (ins (AuditLogger.payloadOf level code log))).1
  · intro level
    exact (logResponse_spec (AuditLogger.payloadOf level code log)
      (ins (AuditLogger.payloadOf level code log))).2.1
  · intro level
    exact (logResponse_spec (AuditLogger.payloadOf level code log)
      (ins (AuditLogger.payloadOf level code log))).2.2

/-- Witness for C10: a storage response carrying a non-None `message`
makes `success` raise after exactly one insert and one error log. -/
theorem audit_log_spec_witness :
    isErr (AuditLogger.success
        (fun _ => Except.ok (PyVal.dict [("message", PyVal.str "oops")]))
        "CONCH" Option.none).result = true ∧
    (AuditLogger.success
        (fun _ => Except.ok (PyVal.dict [("message", PyVal.str "oops")]))
        "CONCH" Option.none).logged = 1 := by
  have h := audit_log_spec
    (fun _ => Except.ok (PyVal.dict [("message", PyVal.str "oops")])) "CONCH" Option.none
  have herr : isErr (AuditLogger._log
      (fun _ => Except.ok (PyVal.dict [("message", PyVal.str "oops")]))
      0 "CONCH" Option.none).result = true :=
    (h.2.2.2.2.2.1 0).mpr
      (Or.inr ⟨[("message", PyVal.str "oops")], PyVal.str "oops", rfl, rfl, by simp⟩)
  constructor
  · rw [h.2.1]
    exact herr
  · rw [h.2.1, h.2.2.2.2.2.2 0, if_pos herr]

end Fledge

